import Mathlib

/-!
Shallow embedding of `bot.js` from the discord-git-bot repository.

The embedding models the polling/dedup/dispatch core as pure functions:
network fetches become explicit `FetchOutcome` inputs, the side effects of
one polling cycle (posting to the channel, pacing sleeps, state saves,
log lines) become an explicit trace of `Action`s, and the mutable module
state `lastEventId` becomes explicit state passing (`CycleState`).
Event ids are modelled as `Nat`: the source treats them as opaque strings
compared only with `===`, and the spec's "newer" ordering is the natural
order on these ids.
-/

namespace GitBot

/-- One commit record as produced by `fetchCommits` in `bot.js`
(`{ sha, message }` mapped from the compare-API response). -/
structure Commit where
  sha : String
  message : String
deriving DecidableEq

/-- One GitHub feed event as consumed by `pollGitHub`/`postEvent`:
its id, its `type` string, and the pieces of `payload` that the polling
and dispatch logic inspects (`payload.commits`, `payload.before`,
`payload.head`; `none` models an absent/falsy field). -/
structure FeedItem where
  id : Nat
  type : String
  commits : List Commit
  before : Option String
  head : Option String
deriving DecidableEq

/-- Result of one call to `fetchGitHub` in `bot.js`: `nullResult` is the
JS `null` return (rate-limit gate suppression or a 403/429 throttle),
`thrown s` is the thrown `GitHub API error: s` for a non-ok status, and
`value a` is the parsed JSON body on success. -/
inductive FetchOutcome (α : Type) where
  | nullResult : FetchOutcome α
  | thrown : Nat → FetchOutcome α
  | value : α → FetchOutcome α
deriving DecidableEq

/-- The transport-level data `fetchGitHub` inspects on a response:
the HTTP status and the `x-ratelimit-reset` header (epoch seconds),
`none` when the header is absent. -/
structure HttpResponse where
  status : Nat
  resetHeader : Option Nat
deriving DecidableEq

/-- JS `response.ok`: status in the 2xx range. -/
def respOk (status : Nat) : Bool :=
  decide (200 ≤ status) && decide (status < 300)

/-- Embedding of `fetchGitHub` (bot.js lines 65-97). Inputs: the current
time and module-level `rateLimitReset` (epoch ms), the response the
transport would give, and the parsed body it would carry. Returns the
call's outcome together with the updated `rateLimitReset`:
gate suppression (`now < rateLimitReset`) returns null and leaves the
gate alone; status 403/429 returns null and sets the gate from the reset
header (seconds, scaled to ms) or to `now + 60000` without a header; any
other non-ok status throws; otherwise the body is returned. -/
def fetchGitHub {α : Type} (now rateLimitReset : Nat) (resp : HttpResponse)
    (body : α) : FetchOutcome α × Nat :=
  if now < rateLimitReset then
    (FetchOutcome.nullResult, rateLimitReset)
  else if resp.status = 403 ∨ resp.status = 429 then
    (FetchOutcome.nullResult,
      match resp.resetHeader with
      | some r => r * 1000
      | none => now + 60000)
  else if respOk resp.status then
    (FetchOutcome.value body, rateLimitReset)
  else
    (FetchOutcome.thrown resp.status, rateLimitReset)

/-- Embedding of `fetchCommits` (bot.js lines 103-110): routes through
`fetchGitHub` and turns a null result into the empty commit list
(`if (!data) return []`); a thrown error propagates; a successful body
is the mapped commit list. -/
def fetchCommits (now rateLimitReset : Nat) (resp : HttpResponse)
    (commits : List Commit) : FetchOutcome (List Commit) × Nat :=
  match fetchGitHub now rateLimitReset resp commits with
  | (FetchOutcome.nullResult, r) => (FetchOutcome.value [], r)
  | other => other

/-- The eight event types handled by the `switch` in `postEvent`
(bot.js lines 182-253); any other type hits the `default` arm and is
skipped without a send. -/
def knownEventTypes : List String :=
  ["PushEvent", "CreateEvent", "ForkEvent", "WatchEvent", "ReleaseEvent",
   "IssuesEvent", "IssueCommentEvent", "PullRequestEvent"]

/-- The default `CONFIG.EVENT_TYPES` value (bot.js line 17): the split on
the comma character of the literal fallback string used when the
`EVENT_TYPES` environment variable is absent (the JS `split(',')` with a
single-character separator, taken at the character-list level). -/
def defaultEventTypes : List String :=
  (("PushEvent,CreateEvent,ForkEvent,ReleaseEvent,IssuesEvent,IssueCommentEvent,PullRequestEvent").data.splitOn ',').map
    (fun cs => String.mk cs)

/-- Outcome of one `postEvent` call: the embed was sent; or an error was
caught by `postEvent`'s own try/catch and logged (`failedLogged`, carrying
the status of a thrown backfill fetch); or the `default` switch arm
returned without sending (`skippedUnknown`). -/
inductive PostOutcome where
  | sent : PostOutcome
  | failedLogged : Nat → PostOutcome
  | skippedUnknown : PostOutcome
deriving DecidableEq

/-- The condition under which `postEvent` calls `fetchCommits`
(bot.js line 187): a push whose inline commit list is empty and whose
payload carries both `before` and `head`. -/
def needsBackfill (ev : FeedItem) : Bool :=
  ev.type = "PushEvent" && ev.commits.isEmpty
    && ev.before.isSome && ev.head.isSome

/-- Embedding of the control flow of `postEvent` (bot.js lines 166-263)
for one event, given the outcome `bf` that the commit-detail backfill
fetch would produce if invoked. An unknown type hits the `default` arm
and returns without sending. For a push needing backfill, a thrown
backfill fetch is caught by `postEvent`'s try/catch and logged
(`failedLogged`); a null backfill yields an empty commit list and the
head-sha fallback description is sent. All other paths build the embed
and send it. The embed contents themselves (titles, truncated
descriptions, colors) do not affect the dispatch control flow and are
not tracked in the trace. -/
def postEvent (ev : FeedItem) (bf : FetchOutcome (List Commit)) : PostOutcome :=
  if knownEventTypes.contains ev.type then
    if needsBackfill ev then
      match bf with
      | FetchOutcome.thrown s => PostOutcome.failedLogged s
      | _ => PostOutcome.sent
    else PostOutcome.sent
  else PostOutcome.skippedUnknown

/-- One observable side effect of a polling cycle, in order: a `postEvent`
call on the item with the given id and its outcome, a `sleep(ms)`, a
`saveLastEventId(id)` persistence write, or a `log` line. -/
inductive Action where
  | post : Nat → PostOutcome → Action
  | sleepMs : Nat → Action
  | save : Nat → Action
  | logMsg : String → Action
deriving DecidableEq

/-- Embedding of the collection loop in `pollGitHub` (bot.js lines
125-131): walk the feed newest-first, stop (exclusive) at the event whose
id equals the stored `lastEventId`, and keep only events whose type is in
the configured allow-list. -/
def collectNew (lastId : Option Nat) (types : List String) :
    List FeedItem → List FeedItem
  | [] => []
  | e :: rest =>
    if lastId = some e.id then []
    else if types.contains e.type then e :: collectNew lastId types rest
    else collectNew lastId types rest

/-- The inputs one `pollGitHub` cycle draws from its environment: the
outcome of the `fetchEvents` call, whether the channel-cache lookup
succeeds, the configured `CONFIG.EVENT_TYPES` allow-list, and the outcome
the commit-detail backfill fetch would produce for each event. -/
structure CycleInput where
  fetchResult : FetchOutcome (List FeedItem)
  channelFound : Bool
  eventTypes : List String
  backfill : FeedItem → FetchOutcome (List Commit)

/-- The module-level mutable state of `bot.js` that a cycle reads and
writes: `lastEventId` (bot.js line 33). -/
structure CycleState where
  lastEventId : Option Nat
deriving DecidableEq

/-- The REPLAY dispatch loop (bot.js lines 139-142): for each event of the
already-reversed batch, call `postEvent` and then `sleep(500)`. -/
def replayTrace (inp : CycleInput) : List FeedItem → List Action
  | [] => []
  | e :: rest =>
    Action.post e.id (postEvent e (inp.backfill e))
      :: Action.sleepMs 500 :: replayTrace inp rest

/-- The dispatch block of `pollGitHub` (bot.js lines 133-144): nothing
when no new events were collected; on first run (`lastEventId === null`)
a single `postEvent` on the newest collected event with no pacing sleep;
otherwise the paced replay of the collected list in reverse
(chronological) order. -/
def dispatchTrace (inp : CycleInput) (lastId : Option Nat)
    (newEvents : List FeedItem) : List Action :=
  match newEvents with
  | [] => []
  | m :: _ =>
    match lastId with
    | none => [Action.post m.id (postEvent m (inp.backfill m))]
    | some _ => replayTrace inp newEvents.reverse

/-- Embedding of one `pollGitHub` cycle (bot.js lines 112-153), returning
the trace of observable actions and the updated state. A thrown
`fetchEvents` is caught at the cycle boundary and logged (bot.js lines
150-152); a null fetch ends the cycle silently (line 115); a missing
channel logs and ends the cycle (lines 119-123); otherwise the new events
are collected and dispatched, and if the fetched list was non-empty,
`lastEventId` is set to the newest fetched id and persisted (lines
146-149). `postEvent`, `sleep` and `saveLastEventId` never throw (each
catches internally), so the only exception reaching the boundary is from
`fetchEvents`. -/
def pollGitHub (inp : CycleInput) (st : CycleState) :
    List Action × CycleState :=
  match inp.fetchResult with
  | FetchOutcome.thrown s =>
    ([Action.logMsg ("Poll error: GitHub API error: " ++ toString s)], st)
  | FetchOutcome.nullResult => ([], st)
  | FetchOutcome.value events =>
    if inp.channelFound then
      let newEvents := collectNew st.lastEventId inp.eventTypes events
      let posts := dispatchTrace inp st.lastEventId newEvents
      match events with
      | [] => (posts, st)
      | e :: _ => (posts ++ [Action.save e.id], { lastEventId := some e.id })
    else
      ([Action.logMsg "Channel not found"], st)

/-- The ids passed to `postEvent` during a cycle, in dispatch order. -/
def dispatchedIds (tr : List Action) : List Nat :=
  tr.filterMap fun a =>
    match a with
    | Action.post i _ => some i
    | _ => none

/-- The ids written by `saveLastEventId` during a cycle, in order. -/
def savedIds (tr : List Action) : List Nat :=
  tr.filterMap fun a =>
    match a with
    | Action.save i => some i
    | _ => none

/-- A sequence of polling cycles threaded through the module state. -/
def runCycles : List CycleInput → CycleState → CycleState
  | [], st => st
  | i :: rest, st => runCycles rest (pollGitHub i st).2

/-- Embedding of `truncate` (bot.js lines 269-273) on JS strings modelled
as lists of characters (`[]` models the falsy empty/absent input): keep a
short-enough string, otherwise cut to `len - 3` characters (JS
`substring` clamps a negative bound to 0, matching `Nat` subtraction) and
append the three-dot ellipsis marker. -/
def truncate (s : List Char) (len : Nat) : List Char :=
  if s.isEmpty then []
  else if s.length ≤ len then s
  else s.take (len - 3) ++ ['.', '.', '.']

/-! ## Sample concrete inputs used by witnesses and counterexamples -/

/-- A backfill environment in which every commit-detail fetch succeeds
with an empty commit list. -/
def sampleBackfillOk : FeedItem → FetchOutcome (List Commit) :=
  fun _ => FetchOutcome.value []

/-- A sample star event with id 5. -/
def watch5 : FeedItem :=
  { id := 5, type := "WatchEvent", commits := [], before := none, head := none }

/-- A sample push event with id 4 whose payload has no inline commits but
carries a before/head range, so `postEvent` invokes the backfill fetch. -/
def push4 : FeedItem :=
  { id := 4, type := "PushEvent", commits := [], before := some "b", head := some "h" }

/-- A sample star event with id 3. -/
def watch3 : FeedItem :=
  { id := 3, type := "WatchEvent", commits := [], before := none, head := none }

/-! ## Helper lemmas -/

/-- With no stored id (cold start) the collection loop never breaks, so it
is exactly the allow-list filter of the feed. -/
theorem collectNew_none_eq_filter (types : List String) :
    ∀ events : List FeedItem,
      collectNew none types events
        = events.filter (fun e => types.contains e.type)
  | [] => rfl
  | e :: rest => by
    simp only [collectNew, List.filter]
    have hne : ¬ (none : Option Nat) = some e.id := by simp
    rw [if_neg hne, collectNew_none_eq_filter types rest]
    cases types.contains e.type <;> simp

/-- `savedIds` distributes over trace concatenation. -/
theorem savedIds_append (a b : List Action) :
    savedIds (a ++ b) = savedIds a ++ savedIds b :=
  List.filterMap_append a b _

/-- `dispatchedIds` distributes over trace concatenation. -/
theorem dispatchedIds_append (a b : List Action) :
    dispatchedIds (a ++ b) = dispatchedIds a ++ dispatchedIds b :=
  List.filterMap_append a b _

/-- The paced replay loop performs no persistence writes. -/
theorem savedIds_replayTrace (inp : CycleInput) :
    ∀ l : List FeedItem, savedIds (replayTrace inp l) = []
  | [] => rfl
  | e :: rest => by
    simp only [replayTrace, savedIds, List.filterMap_cons]
    exact savedIds_replayTrace inp rest

/-- The replay loop posts exactly the ids of its batch, in order. -/
theorem dispatchedIds_replayTrace (inp : CycleInput) :
    ∀ l : List FeedItem,
      dispatchedIds (replayTrace inp l) = l.map FeedItem.id
  | [] => rfl
  | e :: rest => by
    simp only [replayTrace, dispatchedIds, List.filterMap_cons, List.map]
    rw [← dispatchedIds_replayTrace inp rest]
    rfl

/-- The dispatch block performs no persistence writes. -/
theorem savedIds_dispatchTrace (inp : CycleInput) (lid : Option Nat)
    (l : List FeedItem) : savedIds (dispatchTrace inp lid l) = [] := by
  cases l with
  | nil => rfl
  | cons m rest =>
    cases lid with
    | none => rfl
    | some a => exact savedIds_replayTrace inp (m :: rest).reverse

/-- The ids posted by the dispatch block depend only on the batch and the
stored-id mode, never on the backfill outcomes. -/
theorem dispatchedIds_dispatchTrace (inp : CycleInput) (lid : Option Nat)
    (l : List FeedItem) :
    dispatchedIds (dispatchTrace inp lid l)
      = (match l, lid with
         | [], _ => []
         | m :: _, none => [m.id]
         | _ :: _, some _ => l.reverse.map FeedItem.id) := by
  cases l with
  | nil => rfl
  | cons m rest =>
    cases lid with
    | none => rfl
    | some a => exact dispatchedIds_replayTrace inp (m :: rest).reverse

/-- Characterisation of a full successful cycle on a non-empty feed: the
trace is the dispatch block followed by the persistence write of the
newest id, and the state advances to the newest id. -/
theorem pollGitHub_value_cons (inp : CycleInput) (st : CycleState)
    (e : FeedItem) (rest : List FeedItem)
    (hf : inp.fetchResult = FetchOutcome.value (e :: rest))
    (hch : inp.channelFound = true) :
    pollGitHub inp st =
      (dispatchTrace inp st.lastEventId
          (collectNew st.lastEventId inp.eventTypes (e :: rest))
        ++ [Action.save e.id],
       { lastEventId := some e.id }) := by
  simp [pollGitHub, hf, hch]

/-- Each cycle either leaves the state unchanged or sets it to the newest
id of a successfully fetched non-empty feed with the channel present. -/
theorem poll_state_id_cases (inp : CycleInput) (st : CycleState) :
    (pollGitHub inp st).2 = st
    ∨ ∃ e rest, inp.fetchResult = FetchOutcome.value (e :: rest)
        ∧ inp.channelFound = true
        ∧ (pollGitHub inp st).2 = { lastEventId := some e.id } := by
  cases hfr : inp.fetchResult with
  | thrown s => exact Or.inl (by simp [pollGitHub, hfr])
  | nullResult => exact Or.inl (by simp [pollGitHub, hfr])
  | value events =>
    by_cases hch : inp.channelFound = true
    · cases events with
      | nil => exact Or.inl (by simp [pollGitHub, hfr, hch])
      | cons e rest =>
        exact Or.inr ⟨e, rest, rfl,  hch,
          by rw [pollGitHub_value_cons inp st e rest hfr hch]⟩
    · exact Or.inl (by simp [pollGitHub, hfr, hch])

/-- A non-null `lastEventId` stays non-null across any sequence of
cycles. -/
theorem runCycles_isSome (inps : List CycleInput) :
    ∀ st : CycleState, st.lastEventId.isSome →
      (runCycles inps st).lastEventId.isSome := by
  induction inps with
  | nil => intro st h; exact h
  | cons i rest ih =>
    intro st h
    apply ih
    rcases poll_state_id_cases i st with heq | ⟨e, r, _, _, heq⟩
    · rw [heq]; exact h
    · rw [heq]; rfl

/-! ## Claims -/

/-- C9: for every string `s` and limit `n`, `truncate` returns the empty
string on empty/absent input, `s` unchanged when `|s| ≤ n`, and otherwise
the first `n - 3` characters of `s` followed by the three-dot ellipsis
marker; in particular a 60-character string truncated to 50 yields
exactly 50 characters whose first 47 are the original prefix, ending in
the marker. -/
theorem c9_truncate_spec (s : List Char) (n : Nat) :
    (s = [] → truncate s n = [])
    ∧ (s.length ≤ n → truncate s n = s)
    ∧ (n < s.length → truncate s n = s.take (n - 3) ++ ['.', '.', '.'])
    ∧ (s.length = 60 →
        (truncate s 50).length = 50
        ∧ (truncate s 50).take 47 = s.take 47
        ∧ (truncate s 50).drop 47 = ['.', '.', '.']) := by
  have hshort : s.length ≤ n → truncate s n = s := by
    intro h
    by_cases hs : s = []
    · subst hs; rfl
    · simp [truncate, hs, h]
  have hlong : n < s.length → truncate s n = s.take (n - 3) ++ ['.', '.', '.'] := by
    intro h
    have hs : s ≠ [] := by
      intro hnil
      rw [hnil] at h
      exact absurd h (by simp)
    simp [truncate, hs, Nat.not_le.mpr h]
  refine ⟨fun h => by subst h; rfl, hshort, hlong, fun h60 => ?_⟩
  have hs : s ≠ [] := by
    intro hnil
    rw [hnil] at h60
    simp at h60
  have heq : truncate s 50 = s.take 47 ++ ['.', '.', '.'] := by
    have hgt : ¬ s.length ≤ 50 := by omega
    simp [truncate, hs, hgt]
  have htl : (s.take 47).length = 47 := by
    rw [List.length_take]
    omega
  refine ⟨?_, ?_, ?_⟩
  · rw [heq, List.length_append, htl]
    rfl
  · have ht := List.take_left (s.take 47) ['.', '.', '.']
    rw [htl] at ht
    rw [heq, ht]
  · have hd := List.drop_left (s.take 47) ['.', '.', '.']
    rw [htl] at hd
    rw [heq, hd]

/-- Closed instance of C9 at a concrete 60-character string. -/
theorem c9_truncate_spec_witness :
    (truncate (List.replicate 60 'a') 50).length = 50 :=
  ((c9_truncate_spec (List.replicate 60 'a') 50).2.2.2 (by simp)).1

/-- C7: `fetchGitHub` (hence `fetchActivity`) returns null exactly when
the rate-limit gate suppresses the call (`now < rateLimitReset`) or the
status is a throttle (403/429); on a throttle outside suppression the
gate is set to the reset hint scaled to epoch milliseconds, or to
`now + 60000` without a hint; any other non-success status is thrown to
the caller; and `fetchCommits` (the detail backfill) yields the empty
commit list whenever the underlying fetch returned null. -/
theorem c7_fetch_suppression_semantics (α : Type) (now reset : Nat)
    (resp : HttpResponse) (body : α) (commits : List Commit) :
    ((fetchGitHub now reset resp body).1 = FetchOutcome.nullResult
      ↔ now < reset ∨ resp.status = 403 ∨ resp.status = 429)
    ∧ (¬ now < reset → resp.status = 403 ∨ resp.status = 429 →
        (fetchGitHub now reset resp body).2 =
          (match resp.resetHeader with
           | some r => r * 1000
           | none => now + 60000))
    ∧ (¬ now < reset → ¬(resp.status = 403 ∨ resp.status = 429) →
        respOk resp.status = false →
        (fetchGitHub now reset resp body).1 = FetchOutcome.thrown resp.status)
    ∧ ((fetchGitHub now reset resp commits).1 = FetchOutcome.nullResult →
        (fetchCommits now reset resp commits).1 = FetchOutcome.value []) := by
  refine ⟨?_, ?_, ?_, ?_⟩
  · by_cases h1 : now < reset
    · simp [fetchGitHub, h1]
    · by_cases h2 : resp.status = 403 ∨ resp.status = 429
      · simp [fetchGitHub, h1, h2]
      · by_cases h3 : respOk resp.status
        · simp [fetchGitHub, h1, h2, h3]
        · simp [fetchGitHub, h1, h2, h3]
  · intro h1 h2
    simp [fetchGitHub, h1, h2]
  · intro h1 h2 h3
    simp [fetchGitHub, h1, h2, h3]
  · intro h
    unfold fetchCommits
    cases hp : fetchGitHub now reset resp commits with
    | mk o r =>
      rw [hp] at h
      simp only at h
      subst h
      rfl

/-- Closed instance of C7: with the gate idle and a 429 answer carrying a
reset hint of 5 epoch seconds, the gate is set to 5000 epoch ms. -/
theorem c7_fetch_suppression_semantics_witness :
    (fetchGitHub 0 0 { status := 429, resetHeader := some 5 } (7 : Nat)).2 = 5000 :=
  (c7_fetch_suppression_semantics Nat 0 0
      { status := 429, resetHeader := some 5 } 7 []).2.1
    (by decide) (by decide)

/-- C6 (code bug): the default allow-list of bot.js line 17 contains only
seven event types — `WatchEvent` is missing from the fallback string even
though the README documents the default as all eight supported kinds and
`postEvent` renders stars — so under the default configuration a star
event is never dispatched: a cold-start cycle whose feed is a single star
event posts nothing (while still advancing `lastEventId`). -/
theorem c6_default_excludes_watch :
    defaultEventTypes.length = 7
    ∧ defaultEventTypes.contains "WatchEvent" = false
    ∧ knownEventTypes.contains "WatchEvent" = true
    ∧ (pollGitHub
        { fetchResult := FetchOutcome.value [watch5],
          channelFound := true,
          eventTypes := defaultEventTypes,
          backfill := sampleBackfillOk }
        { lastEventId := none }) =
      ([Action.save 5], { lastEventId := some 5 }) := by
  refine ⟨by decide, by decide, by decide, by decide⟩

/-- C1: in a REPLAY cycle (stored id non-null) on the feed
`[e5, e4, e3]` newest-first with `lastSeenId = e3.id`, the dispatcher
emits exactly `e4` then `e5` (chronological, never the reverse), with a
500 ms sleep after each send — so consecutive sends are 500 ms apart —
and then persists the newest id. -/
theorem c1_replay_chronological (inp : CycleInput) (st : CycleState)
    (e5 e4 e3 : FeedItem)
    (hf : inp.fetchResult = FetchOutcome.value [e5, e4, e3])
    (hch : inp.channelFound = true)
    (hlast : st.lastEventId = some e3.id)
    (h5 : e5.id ≠ e3.id) (h4 : e4.id ≠ e3.id)
    (t5 : inp.eventTypes.contains e5.type = true)
    (t4 : inp.eventTypes.contains e4.type = true) :
    (pollGitHub inp st).1 =
      [Action.post e4.id (postEvent e4 (inp.backfill e4)), Action.sleepMs 500,
       Action.post e5.id (postEvent e5 (inp.backfill e5)), Action.sleepMs 500,
       Action.save e5.id]
    ∧ dispatchedIds (pollGitHub inp st).1 = [e4.id, e5.id] := by
  have m5 : e5.type ∈ inp.eventTypes := by simpa using t5
  have m4 : e4.type ∈ inp.eventTypes := by simpa using t4
  have hcol : collectNew st.lastEventId inp.eventTypes [e5, e4, e3]
      = [e5, e4] := by
    simp [collectNew, hlast, m5, m4, Ne.symm h5, Ne.symm h4]
  have heq : (pollGitHub inp st).1 =
      [Action.post e4.id (postEvent e4 (inp.backfill e4)), Action.sleepMs 500,
       Action.post e5.id (postEvent e5 (inp.backfill e5)), Action.sleepMs 500,
       Action.save e5.id] := by
    rw [pollGitHub_value_cons inp st e5 [e4, e3] hf hch]
    rw [hcol, hlast]
    rfl
  exact ⟨heq, by rw [heq]; rfl⟩

/-- Closed instance of C1: a concrete replay over `[watch5, push4]` above
`lastSeenId = 3` dispatches 4 then 5. -/
theorem c1_replay_chronological_witness :
    dispatchedIds (pollGitHub
      { fetchResult := FetchOutcome.value [watch5, push4, watch3],
        channelFound := true,
        eventTypes := knownEventTypes,
        backfill := sampleBackfillOk }
      { lastEventId := some 3 }).1 = [4, 5] :=
  (c1_replay_chronological
    { fetchResult := FetchOutcome.value [watch5, push4, watch3],
      channelFound := true,
      eventTypes := knownEventTypes,
      backfill := sampleBackfillOk }
    { lastEventId := some 3 } watch5 push4 watch3
    rfl rfl rfl (by decide) (by decide) (by decide) (by decide)).2

/-- C2: on a cold start (stored id null) with a non-empty feed containing
at least one item of an allowed kind, exactly one `postEvent` call is
made — on the newest matching item, i.e. the head of the allow-list
filter of the feed — and `lastEventId` is set and persisted to the id of
the newest fetched item overall. -/
theorem c2_first_run_single_dispatch (inp : CycleInput) (st : CycleState)
    (events : List FeedItem) (m : FeedItem) (ms : List FeedItem)
    (hf : inp.fetchResult = FetchOutcome.value events)
    (hch : inp.channelFound = true)
    (hlast : st.lastEventId = none)
    (hm : collectNew none inp.eventTypes events = m :: ms) :
    dispatchedIds (pollGitHub inp st).1 = [m.id]
    ∧ m :: ms = events.filter (fun e => inp.eventTypes.contains e.type)
    ∧ ∃ e rest, events = e :: rest
        ∧ (pollGitHub inp st).2.lastEventId = some e.id
        ∧ savedIds (pollGitHub inp st).1 = [e.id] := by
  cases events with
  | nil => exact absurd hm (by simp [collectNew])
  | cons e rest =>
    have hpoll := pollGitHub_value_cons inp st e rest hf hch
    rw [hlast] at hpoll
    rw [hm] at hpoll
    refine ⟨?_, ?_, e, rest, rfl, ?_, ?_⟩
    · rw [hpoll, dispatchedIds_append]
      rfl
    · rw [← hm, collectNew_none_eq_filter]
    · rw [hpoll]
    · rw [hpoll, savedIds_append]
      rfl

/-- Closed instance of C2: a cold start over `[watch5, push4]` with the
full allow-list dispatches only id 5 and persists id 5. -/
theorem c2_first_run_single_dispatch_witness :
    dispatchedIds (pollGitHub
      { fetchResult := FetchOutcome.value [watch5, push4],
        channelFound := true,
        eventTypes := knownEventTypes,
        backfill := sampleBackfillOk }
      { lastEventId := none }).1 = [5] :=
  (c2_first_run_single_dispatch
    { fetchResult := FetchOutcome.value [watch5, push4],
      channelFound := true,
      eventTypes := knownEventTypes,
      backfill := sampleBackfillOk }
    { lastEventId := none } [watch5, push4] watch5 [push4]
    rfl rfl rfl (by decide)).1

/-- C3: in every cycle whose fetched feed is non-empty and whose channel
lookup succeeds, `lastEventId` is updated in memory and persisted to the
id of the newest fetched item — for every allow-list and every stored
state, hence regardless of whether anything was dispatched, in
particular when the newest item is of an excluded kind. -/
theorem c3_always_advances (inp : CycleInput) (st : CycleState)
    (e : FeedItem) (rest : List FeedItem)
    (hf : inp.fetchResult = FetchOutcome.value (e :: rest))
    (hch : inp.channelFound = true) :
    (pollGitHub inp st).2.lastEventId = some e.id
    ∧ savedIds (pollGitHub inp st).1 = [e.id] := by
  have hpoll := pollGitHub_value_cons inp st e rest hf hch
  refine ⟨by rw [hpoll], ?_⟩
  rw [hpoll]
  simp only [savedIds_append, savedIds_dispatchTrace]
  rfl

/-- Closed instance of C3: with an empty allow-list nothing is dispatched
yet the newest id 5 is persisted. -/
theorem c3_always_advances_witness :
    (pollGitHub
      { fetchResult := FetchOutcome.value [watch5, push4],
        channelFound := true,
        eventTypes := [],
        backfill := sampleBackfillOk }
      { lastEventId := some 3 }).2.lastEventId = some 5 :=
  (c3_always_advances
    { fetchResult := FetchOutcome.value [watch5, push4],
      channelFound := true,
      eventTypes := [],
      backfill := sampleBackfillOk }
    { lastEventId := some 3 } watch5 [push4] rfl rfl).1

/-- C4: running the cycle twice against an unchanged non-empty feed with
the channel present dispatches zero items on the second run — the first
run advanced `lastEventId` to the feed head, at which the collection walk
stops immediately. -/
theorem c4_second_run_dispatches_nothing (inp : CycleInput)
    (st : CycleState) (e : FeedItem) (rest : List FeedItem)
    (hf : inp.fetchResult = FetchOutcome.value (e :: rest))
    (hch : inp.channelFound = true) :
    dispatchedIds (pollGitHub inp (pollGitHub inp st).2).1 = [] := by
  have hst : (pollGitHub inp st).2 = { lastEventId := some e.id } := by
    rw [pollGitHub_value_cons inp st e rest hf hch]
  rw [hst, pollGitHub_value_cons inp { lastEventId := some e.id } e rest hf hch]
  simp [collectNew, dispatchTrace, dispatchedIds_append, dispatchedIds]

/-- Closed instance of C4: the second cycle over the unchanged feed
`[watch5, push4]` dispatches nothing. -/
theorem c4_second_run_dispatches_nothing_witness :
    dispatchedIds (pollGitHub
      { fetchResult := FetchOutcome.value [watch5, push4],
        channelFound := true,
        eventTypes := knownEventTypes,
        backfill := sampleBackfillOk }
      (pollGitHub
        { fetchResult := FetchOutcome.value [watch5, push4],
          channelFound := true,
          eventTypes := knownEventTypes,
          backfill := sampleBackfillOk }
        { lastEventId := none }).2).1 = [] :=
  c4_second_run_dispatches_nothing
    { fetchResult := FetchOutcome.value [watch5, push4],
      channelFound := true,
      eventTypes := knownEventTypes,
      backfill := sampleBackfillOk }
    { lastEventId := none } watch5 [push4] rfl rfl

/-- C10: when the fetch succeeds with a non-empty feed but the channel is
not in the cache, the cycle logs and ends early: nothing is dispatched,
nothing is persisted, and the in-memory state is left unchanged. -/
theorem c10_missing_channel_freezes_state (inp : CycleInput)
    (st : CycleState) (events : List FeedItem)
    (hf : inp.fetchResult = FetchOutcome.value events)
    (hne : events ≠ [])
    (hch : inp.channelFound = false) :
    (pollGitHub inp st).1 = [Action.logMsg "Channel not found"]
    ∧ (pollGitHub inp st).2 = st
    ∧ dispatchedIds (pollGitHub inp st).1 = []
    ∧ savedIds (pollGitHub inp st).1 = [] := by
  have heq : pollGitHub inp st = ([Action.logMsg "Channel not found"], st) := by
    simp [pollGitHub, hf, hch]
  exact ⟨by rw [heq], by rw [heq], by rw [heq]; rfl, by rw [heq]; rfl⟩

/-- Closed instance of C10: a missing channel freezes the state even
though the feed held new items. -/
theorem c10_missing_channel_freezes_state_witness :
    (pollGitHub
      { fetchResult := FetchOutcome.value [watch5, push4],
        channelFound := false,
        eventTypes := knownEventTypes,
        backfill := sampleBackfillOk }
      { lastEventId := some 3 }).2 = { lastEventId := some 3 } :=
  (c10_missing_channel_freezes_state
    { fetchResult := FetchOutcome.value [watch5, push4],
      channelFound := false,
      eventTypes := knownEventTypes,
      backfill := sampleBackfillOk }
    { lastEventId := some 3 } [watch5, push4]
    rfl (by decide) rfl).2.1

/-- C8: once `lastEventId` is non-null it is never reset to null by any
sequence of cycles; each single cycle either leaves it unchanged or
re-assigns it exactly the newest id of a successfully fetched non-empty
feed (never any other value); and whenever the fetched feed has advanced
(its newest id is at least the stored id, per the feed's newest-first
ordering on ids), the stored id never moves backwards — and equals the
feed's newest id whenever the channel lookup succeeded. -/
theorem c8_lastSeen_only_advances (st : CycleState) (a : Nat)
    (h : st.lastEventId = some a) :
    (∀ inps, ∃ b, (runCycles inps st).lastEventId = some b)
    ∧ (∀ inp, (pollGitHub inp st).2.lastEventId = some a
        ∨ ∃ e rest, inp.fetchResult = FetchOutcome.value (e :: rest)
            ∧ inp.channelFound = true
            ∧ (pollGitHub inp st).2.lastEventId = some e.id)
    ∧ (∀ inp (e : FeedItem) (rest : List FeedItem),
        inp.fetchResult = FetchOutcome.value (e :: rest) → a ≤ e.id →
        ∃ b, (pollGitHub inp st).2.lastEventId = some b ∧ a ≤ b
          ∧ (inp.channelFound = true → b = e.id)) := by
  refine ⟨?_, ?_, ?_⟩
  · intro inps
    have hsome := runCycles_isSome inps st (by rw [h]; rfl)
    exact Option.isSome_iff_exists.mp hsome
  · intro inp
    rcases poll_state_id_cases inp st with heq | ⟨e, rest, hf, hch, heq⟩
    · exact Or.inl (by rw [heq, h])
    · exact Or.inr ⟨e, rest, hf, hch, by rw [heq]⟩
  · intro inp e rest hf hle
    by_cases hch : inp.channelFound = true
    · have hpoll := pollGitHub_value_cons inp st e rest hf hch
      exact ⟨e.id, by rw [hpoll], hle, fun _ => rfl⟩
    · have hst : (pollGitHub inp st).2 = st := by
        simp [pollGitHub, hf, hch]
      exact ⟨a, by rw [hst, h], Nat.le_refl a, fun hc => absurd hc hch⟩

/-- Closed instance of C8: from stored id 3, a cycle fetching
`[watch5, push4]` advances the stored id to exactly 5. -/
theorem c8_lastSeen_only_advances_witness :
    (pollGitHub
      { fetchResult := FetchOutcome.value [watch5, push4],
        channelFound := true,
        eventTypes := knownEventTypes,
        backfill := sampleBackfillOk }
      { lastEventId := some 3 }).2.lastEventId = some 5 := by
  rcases (c8_lastSeen_only_advances { lastEventId := some 3 } 3 rfl).2.2
      { fetchResult := FetchOutcome.value [watch5, push4],
        channelFound := true,
        eventTypes := knownEventTypes,
        backfill := sampleBackfillOk }
      watch5 [push4] rfl (by decide) with ⟨b, hb, hab, hbe⟩
  rw [hb, hbe rfl]
  rfl

/-- The backfill environment of the C5 counterexample: the commit-detail
fetch for the push with id 4 answers with a hard 500 failure; every other
detail fetch succeeds. -/
def failingBackfill : FeedItem → FetchOutcome (List Commit) :=
  fun ev => if ev.id = 4 then FetchOutcome.thrown 500 else FetchOutcome.value []

/-- C5 counterexample: a replay cycle over `[watch5, push4, watch3]`
above `lastSeenId = 3` in which the commit-detail backfill for the push
(id 4) hits a hard 500 transport failure. Contrary to the claim, the
failure is caught per item inside `postEvent` (bot.js lines 260-262), not
raised to the cycle boundary: the later item (id 5) is still dispatched
and sent, and `lastEventId` is still persisted to 5 — the cycle is not
aborted. -/
theorem c5_counterexample :
    pollGitHub
      { fetchResult := FetchOutcome.value [watch5, push4, watch3],
        channelFound := true,
        eventTypes := knownEventTypes,
        backfill := failingBackfill }
      { lastEventId := some 3 } =
    ([Action.post 4 (PostOutcome.failedLogged 500), Action.sleepMs 500,
      Action.post 5 PostOutcome.sent, Action.sleepMs 500,
      Action.save 5],
     { lastEventId := some 5 }) := by
  decide

/-- C5 amended: a non-throttling non-success status on the activity-list
fetch is raised to the cycle boundary, logged there and aborts the cycle
(nothing dispatched, nothing persisted, state unchanged, so the next
cycle is unaffected); but a non-throttling non-success status on the
commit-detail backfill for a push item is caught per item inside
`postEvent`: that item's post fails and is logged, while which items are
dispatched, what is persisted and the resulting state are all independent
of the backfill outcomes. -/
theorem c5_amended_failure_scopes (inp : CycleInput) (st : CycleState) :
    (∀ s, inp.fetchResult = FetchOutcome.thrown s →
      (pollGitHub inp st).1 =
          [Action.logMsg ("Poll error: GitHub API error: " ++ toString s)]
        ∧ (pollGitHub inp st).2 = st)
    ∧ (∀ inp2 : CycleInput,
        inp2.fetchResult = inp.fetchResult →
        inp2.channelFound = inp.channelFound →
        inp2.eventTypes = inp.eventTypes →
        dispatchedIds (pollGitHub inp2 st).1
            = dispatchedIds (pollGitHub inp st).1
        ∧ savedIds (pollGitHub inp2 st).1 = savedIds (pollGitHub inp st).1
        ∧ (pollGitHub inp2 st).2 = (pollGitHub inp st).2)
    ∧ (∀ ev s, knownEventTypes.contains ev.type = true →
        needsBackfill ev = true →
        inp.backfill ev = FetchOutcome.thrown s →
        postEvent ev (inp.backfill ev) = PostOutcome.failedLogged s) := by
  refine ⟨?_, ?_, ?_⟩
  · intro s hf
    exact ⟨by simp [pollGitHub, hf], by simp [pollGitHub, hf]⟩
  · intro inp2 h1 h2 h3
    cases hfr : inp.fetchResult with
    | thrown s =>
      rw [hfr] at h1
      refine ⟨?_, ?_, ?_⟩ <;> simp [pollGitHub, hfr, h1, dispatchedIds, savedIds]
    | nullResult =>
      rw [hfr] at h1
      refine ⟨?_, ?_, ?_⟩ <;> simp [pollGitHub, hfr, h1, dispatchedIds, savedIds]
    | value events =>
      rw [hfr] at h1
      by_cases hch : inp.channelFound = true
      · have hch2 : inp2.channelFound = true := by rw [h2, hch]
        cases events with
        | nil =>
          refine ⟨?_, ?_, ?_⟩ <;>
            simp [pollGitHub, hfr, h1, hch, hch2, collectNew, dispatchTrace,
              dispatchedIds, savedIds]
        | cons e rest =>
          have hl := pollGitHub_value_cons inp st e rest hfr hch
          have hr := pollGitHub_value_cons inp2 st e rest h1 hch2
          rw [h3] at hr
          refine ⟨?_, ?_, ?_⟩
          · rw [hl, hr]
            simp only [dispatchedIds_append, dispatchedIds_dispatchTrace]
          · rw [hl, hr]
            simp only [savedIds_append, savedIds_dispatchTrace]
          · rw [hl, hr]
      · have hch2 : ¬ inp2.channelFound = true := by rw [h2]; exact hch
        refine ⟨?_, ?_, ?_⟩ <;>
          simp [pollGitHub, hfr, h1, hch, hch2, dispatchedIds, savedIds]
  · intro ev s hk hb hbf
    have hk2 : ev.type ∈ knownEventTypes := by simpa using hk
    simp [postEvent, hk2, hb, hbf]

/-- Closed instance of the amended C5: a thrown activity fetch leaves the
state untouched and only logs at the cycle boundary. -/
theorem c5_amended_failure_scopes_witness :
    (pollGitHub
      { fetchResult := FetchOutcome.thrown 404,
        channelFound := true,
        eventTypes := knownEventTypes,
        backfill := sampleBackfillOk }
      { lastEventId := some 3 }).2 = { lastEventId := some 3 } :=
  ((c5_amended_failure_scopes
      { fetchResult := FetchOutcome.thrown 404,
        channelFound := true,
        eventTypes := knownEventTypes,
        backfill := sampleBackfillOk }
      { lastEventId := some 3 }).1 404 rfl).2

end GitBot
